import Mathlib

/-!
Shallow embedding of `format.py` from the sublime-format plugin, together
with proofs checking the repository's natural-language specification
against the code. Python functions are translated into executable Lean
definitions; editor and operating-system state (the filesystem, the
process environment, spawned subprocesses) is passed explicitly through
small structures of abstract query functions. The POSIX branch of the
plugin (`os.name != 'nt'`) is the one modelled throughout.
-/

namespace SublimeFormat

/-- String character list helper: Python `str.startswith`. -/
def startswith (s pre : String) : Bool :=
  pre.toList.isPrefixOf s.toList

/-- String character list helper: Python `str.endswith`. -/
def endswith (s suf : String) : Bool :=
  suf.toList.isSuffixOf s.toList

/-- Index of the last occurrence of a character in a character list,
mirroring Python `str.rfind` (which returns -1 when absent; here `none`). -/
def rfindIdx (c : Char) (l : List Char) : Option Nat :=
  match l.reverse.findIdx? (fun x => x = c) with
  | none => none
  | some i => some (l.length - 1 - i)

/-- POSIX `os.path.splitext`, as in CPython `genericpath._splitext` with
`sep = '/'`, no altsep and `extsep = '.'`: split off the extension at the
last dot of the basename, unless the basename up to that dot is all dots. -/
def splitext (p : String) : String × String :=
  let l := p.toList
  let sepIndex : Int :=
    match rfindIdx '/' l with
    | none => -1
    | some i => (i : Int)
  match rfindIdx '.' l with
  | none => (p, "")
  | some d =>
    if sepIndex < (d : Int) then
      let start : Nat := (sepIndex + 1).toNat
      let between := (l.drop start).take (d - start)
      if between.all (fun c => c = '.') then (p, "")
      else (String.mk (l.take d), String.mk (l.drop d))
    else (p, "")

/-- POSIX `os.path.join` for two components, as in CPython `posixpath.join`. -/
def pjoin (a b : String) : String :=
  if startswith b "/" then b
  else if a == "" then b
  else if endswith a "/" then a ++ b
  else a ++ "/" ++ b

/-- Python truthiness of an optional string: `None` and `''` are falsy. -/
def truthy : Option String → Bool
  | none => false
  | some s => !(s == "")

/-- The `Formatter` enum of `format.py`, in declaration (enumeration) order. -/
inductive Formatter where
  | AutoPep8
  | ClangFormat
  | Gn
  | Prettier
  | RustFmt
deriving DecidableEq

/-- Enumeration order of `Formatter`, as iterated by `for formatter in Formatter`. -/
def formatterList : List Formatter :=
  [Formatter.AutoPep8, Formatter.ClangFormat, Formatter.Gn,
   Formatter.Prettier, Formatter.RustFmt]

/-- `Formatter.__str__`. -/
def formatter_str : Formatter → String
  | Formatter.AutoPep8 => "autopep8"
  | Formatter.ClangFormat => "clang-format"
  | Formatter.Gn => "gn"
  | Formatter.Prettier => "prettier"
  | Formatter.RustFmt => "rustfmt"

/-- The `FORMATTERS` table (candidate executable names), POSIX branch. -/
def FORMATTERS : Formatter → List String
  | Formatter.AutoPep8 => ["autopep8"]
  | Formatter.ClangFormat => ["clang-format"]
  | Formatter.Gn => ["gn"]
  | Formatter.Prettier => ["prettier"]
  | Formatter.RustFmt => ["rustfmt"]

/-- The `LANGUAGES` table of `format.py`. -/
def LANGUAGES : Formatter → List String
  | Formatter.AutoPep8 => ["Python"]
  | Formatter.ClangFormat => ["C", "C++", "Objective-C", "Objective-C++", "Java"]
  | Formatter.Gn => ["GN"]
  | Formatter.Prettier =>
      ["CSS", "HTML", "JavaScript", "JavaScript (Babel)", "JSON", "TypeScript"]
  | Formatter.RustFmt => ["Rust"]

/-- A Sublime Text region, a pair of endpoints that may be reversed.
`Region.first`/`Region.stop` model the API's `begin()`/`end()`. -/
structure Region where
  a : Nat
  b : Nat
deriving DecidableEq

/-- `sublime.Region.begin()`. -/
def Region.first (r : Region) : Nat := min r.a r.b

/-- `sublime.Region.end()`. -/
def Region.stop (r : Region) : Nat := max r.a r.b

/-- `sublime.Region.size()`. -/
def Region.size (r : Region) : Nat := r.stop - r.first

/-- `sublime.Region.empty()`. -/
def Region.isEmpty (r : Region) : Bool := r.a == r.b

/-- The parts of a Sublime Text view that `format.py` reads.
`syn` is `view.settings().get('syntax')` (the field is renamed since the
Python identifier collides with a Lean keyword); `text` is the buffer's
contents, so `view.size()` is `text.length` and `view.substr(Region(0,
view.size()))` is `text` itself. -/
structure View where
  syn : Option String
  file_name : Option String
  text : String
  sel : List Region

/-- `view.size()`. -/
def View.size (v : View) : Nat := v.text.length

/-- `is_supported_language` from `format.py`. -/
def is_supported_language (formatter : Formatter) (view : View) : Bool :=
  match view.syn with
  | none => false
  | some syn0 =>
    let base := (splitext syn0).1
    (LANGUAGES formatter).any (fun lang => endswith base lang) && truthy view.file_name

/-- `formatter_type` from `format.py`: first enumerated formatter whose
`is_supported_language` check passes. -/
def formatter_type (view : View) : Option Formatter :=
  formatterList.find? (fun f => is_supported_language f view)

/-- The language-only part of the support check, following the spec's words
"the first formatter whose language list matches the active buffer's
language": the view's syntax is present and, with its extension stripped,
ends with one of the formatter's language identifiers. Used to compare
`formatter_type` against the spec's description. -/
def language_claims (formatter : Formatter) (view : View) : Bool :=
  match view.syn with
  | none => false
  | some syn0 =>
    let base := (splitext syn0).1
    (LANGUAGES formatter).any (fun lang => endswith base lang)

/-- Abstract filesystem / OS queries used by `find_binary`. `isdir`,
`readable`, `is_file` and `executable` model `os.path.isdir`,
`os.access(_, R_OK)`, `os.path.isfile` and `os.access(_, X_OK)`;
`which` models `shutil.which`; `home` is `os.path.expanduser('~')`. -/
structure FS where
  isdir : String → Bool
  readable : String → Bool
  is_file : String → Bool
  executable : String → Bool
  which : String → Option String
  home : String

/-- The `is_directory` lambda of `find_binary`: a truthy string naming a
readable directory. -/
def is_directory (fs : FS) : Option String → Bool
  | none => false
  | some d => !(d == "") && fs.isdir d && fs.readable d

/-- The `is_binary` lambda of `find_binary`: a truthy string naming an
executable regular file. -/
def is_binary (fs : FS) (f : String) : Bool :=
  !(f == "") && fs.is_file f && fs.executable f

/-- The first loop of `find_binary`: join each candidate name to the
directory and return the first that is an executable regular file. -/
def dir_search (fs : FS) (directory : String) : List String → Option String
  | [] => none
  | b :: rest =>
    let joined := pjoin directory b
    if is_binary fs joined then some joined else dir_search fs directory rest

/-- The second loop of `find_binary`: resolve each candidate name through
`shutil.which` and return the first resolution that qualifies. -/
def which_search (fs : FS) : List String → Option String
  | [] => none
  | b :: rest =>
    match fs.which b with
    | some w => if is_binary fs w then some w else which_search fs rest
    | none => which_search fs rest

/-- The formatter-specific fallback tier of `find_binary` (lines 162-182):
for Prettier, `node_modules/.bin` under the first project folder whose path
is a prefix of the active file (the `for ... else` loop produces `None`
when no folder matches, and `is_directory(None)` is falsy); for RustFmt,
`~/.cargo/bin`; nothing for the other formatters. -/
def fallback_search (fs : FS) (formatter : Formatter) (folders : List String)
    (file_name : String) : Option String :=
  match formatter with
  | Formatter.Prettier =>
    (match folders.find? (fun p => startswith file_name p) with
     | some p =>
       if is_directory fs (some (pjoin (pjoin p "node_modules") ".bin"))
       then dir_search fs (pjoin (pjoin p "node_modules") ".bin")
              (FORMATTERS Formatter.Prettier)
       else none
     | none => none)
  | Formatter.RustFmt =>
    if is_directory fs (some (pjoin (pjoin fs.home ".cargo") "bin"))
    then dir_search fs (pjoin (pjoin fs.home ".cargo") "bin")
           (FORMATTERS Formatter.RustFmt)
    else none
  | _ => none

/-- `find_binary` from `format.py`. The Python function receives the view;
only `view.window().folders()` and `view.file_name()` are read (and only on
the Prettier fallback path, where a file name is guaranteed by the caller),
so those two values are passed directly. -/
def find_binary (fs : FS) (formatter : Formatter) (directory : Option String)
    (folders : List String) (file_name : String) : Option String :=
  match (if is_directory fs directory
         then dir_search fs (directory.getD "") (FORMATTERS formatter) else none) with
  | some b => some b
  | none =>
  match which_search fs (FORMATTERS formatter) with
  | some b => some b
  | none => fallback_search fs formatter folders file_name

/-- The fallback-tier candidate paths, written from the spec's words:
`node_modules/.bin` under the project folder containing the active file for
Prettier, `~/.cargo/bin` for RustFmt, nothing otherwise. -/
def fallback_candidates (fs : FS) (formatter : Formatter) (folders : List String)
    (file_name : String) : List String :=
  match formatter with
  | Formatter.Prettier =>
    (match folders.find? (fun p => startswith file_name p) with
     | some p =>
       if is_directory fs (some (pjoin (pjoin p "node_modules") ".bin"))
       then (FORMATTERS Formatter.Prettier).map
              (pjoin (pjoin (pjoin p "node_modules") ".bin"))
       else []
     | none => [])
  | Formatter.RustFmt =>
    if is_directory fs (some (pjoin (pjoin fs.home ".cargo") "bin"))
    then (FORMATTERS Formatter.RustFmt).map
           (pjoin (pjoin (pjoin fs.home ".cargo") "bin"))
    else []
  | _ => []

/-- The candidate paths probed by binary resolution, spelled in the spec's
tier order: configured directory (only if it is a readable directory), then
the system search path, then the formatter-specific fallback directory.
Written from the spec's words, to be compared against `find_binary`. -/
def spec_search_candidates (fs : FS) (formatter : Formatter) (directory : Option String)
    (folders : List String) (file_name : String) : List String :=
  (if is_directory fs directory
   then (FORMATTERS formatter).map (pjoin (directory.getD "")) else [])
  ++ (FORMATTERS formatter).filterMap fs.which
  ++ fallback_candidates fs formatter folders file_name

/-- The outcome of a spawned subprocess, with streams already decoded:
`returncode`, standard output and standard error. A non-empty decoded
string corresponds exactly to truthy (non-empty) bytes. -/
structure ProcResult where
  returncode : Int
  stdout : String
  stderr : String
deriving DecidableEq

/-- Abstract operating-system context for `execute_command`: the current
process environment (`os.environ`), `os.path.expandvars`, and process
spawning (`subprocess.Popen` + `communicate`) as a function of the command,
working directory, environment and stdin. -/
structure OS where
  environ : String → Option String
  expandvars : String → String
  spawn : List String → String → (String → Option String) → Option String → ProcResult

/-- The environment-overlay loop of `execute_command`: start from a copy of
the base environment and assign `expand value` at each key of `extra`. -/
def overlayFold (environ : String → Option String) (expand : String → String)
    (extra : List (String × String)) : String → Option String :=
  extra.foldl (fun env kv x => if x = kv.1 then some (expand kv.2) else env x) environ

/-- The environment `execute_command` passes to the spawned process:
`os.environ.copy()` overlaid with the expanded `extra_environment` entries. -/
def exec_environment (os : OS) (extra : List (String × String)) : String → Option String :=
  overlayFold os.environ os.expandvars extra

/-- The post-spawn logic of `execute_command` (lines 220-235): on zero exit
return decoded stdout when truthy, else `None`; on non-zero exit surface an
error message (stderr if truthy, else stdout if truthy, else a generic
unknown-error text with the exit code) and return `None`. The first
component is the returned value, the second the `sublime.error_message`
text, when one is shown. -/
def execute_command_pure (proc : ProcResult) : Option String × Option String :=
  if proc.returncode = 0 then
    ((if proc.stdout = "" then none else some proc.stdout), none)
  else if proc.stderr ≠ "" then
    (none, some ("Error: " ++ proc.stderr))
  else if proc.stdout ≠ "" then
    (none, some ("Error: " ++ proc.stdout))
  else
    (none, some ("Error: Unknown error " ++ toString proc.returncode))

/-- `execute_command` from `format.py`, on the non-exceptional path: build
the child environment, spawn the process, then apply the result logic.
A dict-valued `extra_environment` is passed as an association list; `[]`
plays the role of the falsy `None`/`{}` (the overlay is then the identity). -/
def execute_command (os : OS) (command : List String) (working_directory : String)
    (stdin : Option String) (extra_environment : List (String × String)) :
    Option String × Option String :=
  let environment := exec_environment os extra_environment
  let proc := os.spawn command working_directory environment stdin
  execute_command_pure proc

/-- An `OS` whose spawn always yields the given process result, with an
empty base environment and identity variable expansion. Used to evaluate
the execution model at concrete process outcomes. -/
def constOS (p : ProcResult) : OS :=
  { environ := fun _ => none
    expandvars := id
    spawn := fun _ _ _ _ => p }

/-- The row of `view.rowcol(p)`: the number of newline characters among the
first `p` characters of the buffer. -/
def rowOf (text : String) (p : Nat) : Nat :=
  (text.toList.take p).count '\n'

/-- The `selected_regions` lambda of `FormatFileCommand.run`: no regions when
selections are ignored or there is no selection, otherwise the non-empty
selections in order. -/
def selected_regions (view : View) (ignore_selections : Bool) : List Region :=
  if ignore_selections || view.sel.isEmpty then []
  else view.sel.filter (fun r => !(r.isEmpty))

/-- The `--parser` flags of the Prettier branch of `FormatFileCommand.run`,
chosen from the extension-stripped syntax name. -/
def prettierParserArgs (view : View) : List String :=
  let base := (splitext (view.syn.getD "")).1
  if endswith base "CSS" then ["--parser", "css"]
  else if endswith base "HTML" then ["--parser", "html"]
  else if endswith base "JSON" then ["--parser", "json"]
  else if endswith base "TypeScript" then ["--parser", "typescript"]
  else ["--parser", "babel"]

/-- The command-construction part of `FormatFileCommand.run` (lines 278-323):
the argument list handed to `execute_command`, starting with the resolved
binary. The caller guarantees a file name and a syntax whenever the branch
that reads them is reached, so `Option.getD ""` stands in for those reads. -/
def build_command (view : View) (formatter : Formatter) (binary : String)
    (ignore_selections : Bool) : List String :=
  let regions := selected_regions view ignore_selections
  match formatter with
  | Formatter.AutoPep8 =>
    (match regions with
     | [] => [binary]
     | r :: _ =>
       [binary, "--line-range", toString (rowOf view.text r.first + 1),
        toString (rowOf view.text r.stop + 1)])
    ++ ["-"]
  | Formatter.ClangFormat =>
    regions.foldl
      (fun c r => c ++ ["-offset", toString r.first, "-length", toString r.size])
      [binary, "-assume-filename", view.file_name.getD ""]
  | Formatter.Gn => [binary, "format", "--stdin"]
  | Formatter.Prettier =>
    ([binary] ++ prettierParserArgs view)
    ++ (match regions with
        | [] => []
        | r :: _ => ["--range-start", toString r.first, "--range-end", toString r.stop])
  | Formatter.RustFmt => [binary]

/-- The flags the ClangFormat branch appends for one selection. -/
def clangRangeFlags (r : Region) : List String :=
  ["-offset", toString r.first, "-length", toString r.size]

/-- Concatenation of per-region flag lists, in selection order. -/
def concatMapRegions (g : Region → List String) : List Region → List String
  | [] => []
  | r :: rest => g r ++ concatMapRegions g rest

/-- The tail of `FormatFileCommand.run` (lines 333-335): replace the whole
buffer with the formatter's output when that output is truthy, otherwise
leave the view untouched. -/
def applyFormatResult (view : View) (contents : Option String) : View :=
  match contents with
  | some c => if c = "" then view else { view with text := c }
  | none => view

/-- POSIX `os.path.dirname`. -/
def dirname (p : String) : String :=
  let l := p.toList
  match rfindIdx '/' l with
  | none => ""
  | some i =>
    let head := l.take (i + 1)
    if head.all (fun c => c = '/') then String.mk head
    else String.mk ((head.reverse.dropWhile (fun c => c = '/')).reverse)

/-- `FormatFileCommand.run` end to end: build the command, pipe the buffer
through `execute_command` from the file's directory, and replace the buffer
with the output when there is any. -/
def run_command (os : OS) (view : View) (formatter : Formatter) (binary : String)
    (extra_environment : List (String × String)) (ignore_selections : Bool) : View :=
  let command := build_command view formatter binary ignore_selections
  let working_directory := dirname (view.file_name.getD "")
  let res := execute_command os command working_directory (some view.text) extra_environment
  applyFormatResult view res.1

/-- Values stored in the project's settings, mirroring the JSON shapes the
plugin reads: strings, booleans, lists and string-keyed dictionaries. -/
inductive SettingVal where
  | s (v : String)
  | b (v : Bool)
  | list (v : List SettingVal)
  | dict (v : List (String × SettingVal))

/-- Python dict lookup on a settings dictionary (keys are unique). -/
def sLookup (d : List (String × SettingVal)) (k : String) : Option SettingVal :=
  match d.find? (fun kv => kv.1 == k) with
  | none => none
  | some kv => some kv.2

/-- `get_project_setting` from `format.py`: walk
`project_data['settings']['format'][str(formatter)][setting_key]`, returning
`none` as soon as a key is missing, and expanding environment variables in
string-valued settings. The code indexes each level as a dictionary, so a
non-dictionary value at an intermediate level (which would raise in Python)
is modelled as `none`. -/
def get_project_setting (expand : String → String)
    (project_data : Option (List (String × SettingVal)))
    (formatter : Option Formatter) (setting_key : String) : Option SettingVal :=
  match project_data with
  | none => none
  | some pd =>
    if pd.isEmpty then none
    else
      match sLookup pd "settings" with
      | some (SettingVal.dict settings) =>
        (match sLookup settings "format" with
         | some (SettingVal.dict fmtSettings) =>
           let chosen : Option (List (String × SettingVal)) :=
             match formatter with
             | none => some fmtSettings
             | some f =>
               match sLookup fmtSettings (formatter_str f) with
               | some (SettingVal.dict d) => some d
               | _ => none
           (match chosen with
            | none => none
            | some s =>
              match sLookup s setting_key with
              | some (SettingVal.s v) => some (SettingVal.s (expand v))
              | other => other)
         | _ => none)
      | _ => none

/-- One entry of `project_data['folders']`; either key may be absent. -/
structure Folder where
  name : Option String
  path : Option String

/-- The parts of a Sublime window that the listener reads:
`extract_variables()['project_path']`, the project settings dictionary, and
`project_data['folders']`. -/
structure Window where
  project_path : String
  project_data : Option (List (String × SettingVal))
  folders : List Folder

/-- `FormatFileListener._get_folder_data`: map each folder entry carrying
both a name and a path to the path joined under the project path. Later
entries with the same name overwrite earlier ones, as in a Python dict. -/
def get_folder_data (w : Window) : String → Option String :=
  w.folders.foldl
    (fun fd folder =>
      match folder.name, folder.path with
      | some n, some p => fun k => if k = n then some (pjoin w.project_path p) else fd k
      | _, _ => fd)
    (fun _ => none)

/-- The generator inside `FormatFileListener._is_enabled`:
`any(file_name.startswith(folder_data[f]) for f in format_on_save)`.
Evaluation is lazy and stops at the first prefix match; a key that is not a
string or is absent from the folder data raises `KeyError` when reached,
modelled as `none`. -/
def anyPrefixMatch (file_name : String) (folder_data : String → Option String) :
    List SettingVal → Option Bool
  | [] => some false
  | v :: rest =>
    match v with
    | SettingVal.s n =>
      (match folder_data n with
       | none => none
       | some path =>
         if startswith file_name path then some true
         else anyPrefixMatch file_name folder_data rest)
    | _ => none

/-- `FormatFileListener._is_enabled`: a boolean `on_save` setting decides
directly; a list setting matches the saved file's path against the resolved
folder paths of the listed names; anything else disables the trigger.
`none` models the `KeyError` escaping `_is_enabled`. -/
def listener_is_enabled (expand : String → String) (w : Window)
    (formatter : Formatter) (file_name : String) : Option Bool :=
  match get_project_setting expand w.project_data (some formatter) "on_save" with
  | some (SettingVal.b v) => some v
  | some (SettingVal.list l) => anyPrefixMatch file_name (get_folder_data w) l
  | _ => some false

/-- `FormatFileListener.on_pre_save`: whether the save triggers the format
command (`some true`), does nothing (`some false`), or raises (`none`). -/
def on_pre_save_runs (expand : String → String) (w : Window) (view : View) : Option Bool :=
  match formatter_type view with
  | none => some false
  | some f => listener_is_enabled expand w f (view.file_name.getD "")

/-! Concrete sample data used to evaluate the model at specific inputs. -/

/-- A saved Python buffer. -/
def viewPython : View :=
  { syn := some "Packages/Python/Python.sublime-syntax"
    file_name := some "/work/script.py"
    text := "x = 1\n"
    sel := [] }

/-- An unsaved Python buffer (no file name). -/
def viewUnsaved : View :=
  { syn := some "Packages/Python/Python.sublime-syntax"
    file_name := none
    text := "x = 1\n"
    sel := [] }

/-- A saved C++ buffer with two disjoint non-empty selections. -/
def viewTwoSel : View :=
  { syn := some "Packages/C++/C++.sublime-syntax"
    file_name := some "/work/a.cpp"
    text := String.mk (List.replicate 30 'a')
    sel := [⟨0, 5⟩, ⟨10, 20⟩] }

/-- A saved C++ buffer whose only selection is empty (a bare caret), so no
non-empty selection is active. -/
def viewEmptySel : View :=
  { syn := some "Packages/C++/C++.sublime-syntax"
    file_name := some "/work/b.cpp"
    text := "int y;\n"
    sel := [⟨7, 7⟩] }

/-- A saved JavaScript buffer of 100 characters with the single selection
[10, 20). -/
def viewRangeSel : View :=
  { syn := some "Packages/JavaScript/JavaScript.sublime-syntax"
    file_name := some "/work/app.js"
    text := String.mk (List.replicate 100 'a')
    sel := [⟨10, 20⟩] }

/-- A saved C++ buffer under the project's "Frontend" folder. -/
def viewFrontend : View :=
  { syn := some "Packages/C++/C++.sublime-syntax"
    file_name := some "/proj/fe/widget.cpp"
    text := "int x;\n"
    sel := [] }

/-- A window whose clang-format `on_save` setting is the folder list
`["Frontend"]`, with a project folder named Frontend at path `fe`. -/
def winFolderList : Window :=
  { project_path := "/proj"
    project_data := some
      [("settings", SettingVal.dict
        [("format", SettingVal.dict
          [("clang-format", SettingVal.dict
            [("on_save", SettingVal.list [SettingVal.s "Frontend"])])])])]
    folders := [{ name := some "Frontend", path := some "fe" }] }

/-- A window whose clang-format `on_save` setting is the boolean `true`. -/
def winBoolSave : Window :=
  { project_path := "/proj"
    project_data := some
      [("settings", SettingVal.dict
        [("format", SettingVal.dict
          [("clang-format", SettingVal.dict
            [("on_save", SettingVal.b true)])])])]
    folders := [{ name := some "Frontend", path := some "fe" }] }

/-- A window listing `["Frontend", "Ghost"]` for `on_save`, where only
Frontend is a project folder. -/
def winGhost : Window :=
  { project_path := "/proj"
    project_data := some
      [("settings", SettingVal.dict
        [("format", SettingVal.dict
          [("clang-format", SettingVal.dict
            [("on_save",
              SettingVal.list [SettingVal.s "Frontend", SettingVal.s "Ghost"])])])])]
    folders := [{ name := some "Frontend", path := some "fe" }] }

/-- A window listing `["Other", "Ghost"]` for `on_save`, where only Other is
a project folder. -/
def winGhostSecond : Window :=
  { project_path := "/proj"
    project_data := some
      [("settings", SettingVal.dict
        [("format", SettingVal.dict
          [("clang-format", SettingVal.dict
            [("on_save",
              SettingVal.list [SettingVal.s "Other", SettingVal.s "Ghost"])])])])]
    folders := [{ name := some "Other", path := some "ot" }] }

/-! Helper lemmas. -/

/-- The support check factors into the language match and the file-name
truthiness. -/
theorem is_supported_language_eq (formatter : Formatter) (view : View) :
    is_supported_language formatter view
      = (language_claims formatter view && truthy view.file_name) := by
  cases hs : view.syn with
  | none => simp [is_supported_language, language_claims, hs]
  | some s => simp [is_supported_language, language_claims, hs]

/-- The directory loop of `find_binary` is a first-match search over the
joined candidate paths. -/
theorem dir_search_eq_find (fs : FS) (d : String) (l : List String) :
    dir_search fs d l = (l.map (pjoin d)).find? (is_binary fs) := by
  induction l with
  | nil => rfl
  | cons b rest ih =>
    cases hb : is_binary fs (pjoin d b) with
    | true => simp [dir_search, hb]
    | false => simp [dir_search, hb, ih]

/-- The PATH loop of `find_binary` is a first-match search over the
`which`-resolved candidates. -/
theorem which_search_eq_find (fs : FS) (l : List String) :
    which_search fs l = (l.filterMap fs.which).find? (is_binary fs) := by
  induction l with
  | nil => rfl
  | cons b rest ih =>
    cases hw : fs.which b with
    | none => simp [which_search, hw, ih]
    | some w =>
      cases hb : is_binary fs w with
      | true => simp [which_search, hw, hb]
      | false => simp [which_search, hw, hb, ih]

/-! Claim theorems. -/

/-- C1 fails as stated: it quantifies over every view whose buffer language
is claimed by some formatter's language list, but for an unsaved buffer
(no file name) with Python syntax the language is claimed by AutoPep8 -
the first enumerated match - yet `formatter_type` returns `none`, because
`is_supported_language` also requires `bool(view.file_name())`. -/
theorem claim1_counterexample :
    language_claims Formatter.AutoPep8 viewUnsaved = true
    ∧ formatterList.find? (fun f => language_claims f viewUnsaved)
        = some Formatter.AutoPep8
    ∧ formatter_type viewUnsaved = none := by
  refine ⟨by decide, by decide, by decide⟩

/-- C1 amended: for a view with a truthy file name, `formatter_type` returns
the first formatter in enumeration order (AutoPep8, ClangFormat, Gn,
Prettier, RustFmt) whose language list matches the view's language, and
`none` exactly when no formatter's language list matches (a consequence of
the first-match equation when the search finds nothing). -/
theorem claim1_formatter_first_match (view : View) (h : truthy view.file_name = true) :
    formatter_type view = formatterList.find? (fun f => language_claims f view) := by
  have hfun : (fun f => is_supported_language f view)
      = (fun f => language_claims f view) := by
    funext f
    rw [is_supported_language_eq, h, Bool.and_true]
  unfold formatter_type
  rw [hfun]

/-- Witness for C1 at a saved Python buffer. -/
theorem claim1_witness :
    truthy viewPython.file_name = true
    ∧ formatter_type viewPython
        = formatterList.find? (fun f => language_claims f viewPython) :=
  ⟨by decide, claim1_formatter_first_match viewPython (by decide)⟩

/-- C9: for a view with no associated file name, `is_supported_language` is
false for every formatter regardless of the syntax, and `formatter_type`
returns `none`. -/
theorem claim9_unsaved_never_supported (view : View) (h : view.file_name = none) :
    formatterList.all (fun f => !(is_supported_language f view)) = true
    ∧ formatter_type view = none := by
  have hfalse : ∀ f, is_supported_language f view = false := by
    intro f
    rw [is_supported_language_eq, h]
    simp [truthy]
  constructor
  · simp [List.all_eq_true, hfalse]
  · unfold formatter_type
    exact List.find?_eq_none.mpr (fun f _ => by simp [hfalse f])

/-- Witness for C9 at an unsaved Python buffer. -/
theorem claim9_witness :
    viewUnsaved.file_name = none
    ∧ (formatterList.all (fun f => !(is_supported_language f viewUnsaved)) = true
       ∧ formatter_type viewUnsaved = none) :=
  ⟨rfl, claim9_unsaved_never_supported viewUnsaved rfl⟩

/-- The fallback tier is a first-match search over the fallback candidates. -/
theorem fallback_search_eq_find (fs : FS) (formatter : Formatter)
    (folders : List String) (file_name : String) :
    fallback_search fs formatter folders file_name
      = (fallback_candidates fs formatter folders file_name).find? (is_binary fs) := by
  cases formatter with
  | Prettier =>
    cases h3 : folders.find? (fun p => startswith file_name p) with
    | none => simp [fallback_search, fallback_candidates, h3]
    | some p =>
      by_cases h4 : is_directory fs (some (pjoin (pjoin p "node_modules") ".bin")) = true
      · simp [fallback_search, fallback_candidates, h3, h4, dir_search_eq_find]
      · simp [fallback_search, fallback_candidates, h3, h4]
  | RustFmt =>
    by_cases h4 : is_directory fs (some (pjoin (pjoin fs.home ".cargo") "bin")) = true
    · simp [fallback_search, fallback_candidates, h4, dir_search_eq_find]
    · simp [fallback_search, fallback_candidates, h4]
  | AutoPep8 => rfl
  | ClangFormat => rfl
  | Gn => rfl

/-- `find_binary` is a first-match search over the full candidate list. -/
theorem find_binary_eq_find (fs : FS) (formatter : Formatter)
    (directory : Option String) (folders : List String) (file_name : String) :
    find_binary fs formatter directory folders file_name
      = (spec_search_candidates fs formatter directory folders file_name).find?
          (is_binary fs) := by
  unfold find_binary spec_search_candidates
  rw [List.find?_append, List.find?_append, which_search_eq_find,
    fallback_search_eq_find]
  by_cases hd : is_directory fs directory = true
  · rw [if_pos hd, if_pos hd, dir_search_eq_find]
    cases hfd : List.find? (is_binary fs)
        ((FORMATTERS formatter).map (pjoin (directory.getD ""))) with
    | some b => simp [hfd]
    | none =>
      simp only [hfd, Option.none_or]
      cases h2 : List.find? (is_binary fs)
          ((FORMATTERS formatter).filterMap fs.which) with
      | some b => simp [h2]
      | none => simp [h2]
  · rw [if_neg hd, if_neg hd, List.find?_nil, Option.none_or]
    cases h2 : List.find? (is_binary fs)
        ((FORMATTERS formatter).filterMap fs.which) with
    | some b => simp [h2]
    | none => simp [h2]

/-- C2: binary resolution is a first-match search over the candidate paths
in the documented tier order (configured directory when it is a readable
directory, then the system search path, then the formatter-specific
fallback), where a candidate qualifies exactly when it is a truthy path to
an executable regular file; in particular `find_binary` returns `none` iff
no candidate in any tier qualifies. -/
theorem claim2_find_binary_tiers (fs : FS) (formatter : Formatter)
    (directory : Option String) (folders : List String) (file_name : String) :
    find_binary fs formatter directory folders file_name
      = (spec_search_candidates fs formatter directory folders file_name).find?
          (is_binary fs)
    ∧ (find_binary fs formatter directory folders file_name = none
        ↔ ∀ c ∈ spec_search_candidates fs formatter directory folders file_name,
            is_binary fs c = false) := by
  refine ⟨find_binary_eq_find fs formatter directory folders file_name, ?_⟩
  rw [find_binary_eq_find fs formatter directory folders file_name,
    List.find?_eq_none]
  simp

/-- Keys outside the extra-environment overlay are looked up in the base
environment. -/
theorem overlayFold_not_mem (expand : String → String)
    (extra : List (String × String)) (k : String)
    (hk : k ∉ extra.map Prod.fst) :
    ∀ environ, overlayFold environ expand extra k = environ k := by
  induction extra with
  | nil => intro environ; rfl
  | cons kv rest ih =>
    intro environ
    simp only [List.map_cons, List.mem_cons, not_or] at hk
    have hstep : overlayFold environ expand (kv :: rest)
        = overlayFold (fun x => if x = kv.1 then some (expand kv.2) else environ x)
            expand rest := rfl
    rw [hstep, ih hk.2]
    simp [hk.1]

/-- Keys of the extra-environment overlay map to their expanded values. -/
theorem overlayFold_mem (expand : String → String) :
    ∀ (extra : List (String × String)) (k v : String),
      (extra.map Prod.fst).Nodup → (k, v) ∈ extra →
      ∀ environ, overlayFold environ expand extra k = some (expand v) := by
  intro extra
  induction extra with
  | nil => intro k v _ hmem; cases hmem
  | cons kv rest ih =>
    intro k v hnd hmem environ
    simp only [List.map_cons, List.nodup_cons] at hnd
    have hstep : overlayFold environ expand (kv :: rest)
        = overlayFold (fun x => if x = kv.1 then some (expand kv.2) else environ x)
            expand rest := rfl
    rw [hstep]
    rcases List.mem_cons.mp hmem with heq | hrest
    · have h1 : k = kv.1 := by rw [← heq]
      have h2 : v = kv.2 := by rw [← heq]
      have hnot : k ∉ List.map Prod.fst rest := by rw [h1]; exact hnd.1
      rw [overlayFold_not_mem expand rest k hnot]
      show (if k = kv.1 then some (expand kv.2) else environ k) = some (expand v)
      rw [if_pos h1, h2]
    · exact ih k v hnd.2 hrest _

/-- C3 fails as stated: the reported error text is not the decoded standard
error verbatim, it carries an "Error: " framing prefix. At exit code 1 with
standard error "boom", the dialog text is "Error: boom", not "boom". -/
theorem claim3_counterexample :
    execute_command (constOS ⟨1, "", "boom"⟩) ["fmt"] "/tmp" none []
      = (none, some "Error: boom")
    ∧ "Error: boom" ≠ "boom" := by
  exact ⟨rfl, by decide⟩

/-- C3 amended: on non-zero exit, `execute_command` returns `none` and the
user-visible error text is "Error: " followed by the decoded standard-error
content when that is non-empty, else "Error: " followed by the decoded
standard-output content when that is non-empty, else the generic
unknown-error message carrying the exit code. -/
theorem claim3_amended_error_reporting (os : OS) (command : List String)
    (working_directory : String) (stdin : Option String)
    (extra : List (String × String)) (proc : ProcResult)
    (hp : os.spawn command working_directory (exec_environment os extra) stdin = proc)
    (hrc : proc.returncode ≠ 0) :
    execute_command os command working_directory stdin extra
      = (none, some (if proc.stderr ≠ "" then "Error: " ++ proc.stderr
          else if proc.stdout ≠ "" then "Error: " ++ proc.stdout
          else "Error: Unknown error " ++ toString proc.returncode)) := by
  have hstep : execute_command os command working_directory stdin extra
      = execute_command_pure proc := by rw [← hp]; rfl
  rw [hstep]
  unfold execute_command_pure
  rw [if_neg hrc]
  split_ifs <;> rfl

/-- Witness for the amended C3 at exit code 2 with both streams non-empty. -/
theorem claim3_amended_witness :
    execute_command (constOS ⟨2, "out", "err"⟩) ["fmt"] "/tmp" none []
      = (none, some "Error: err") := by
  have h := claim3_amended_error_reporting (constOS ⟨2, "out", "err"⟩) ["fmt"]
    "/tmp" none [] ⟨2, "out", "err"⟩ rfl (by decide)
  exact h

/-- C6: on zero exit, `execute_command`'s result logic returns the decoded
standard output when it is non-empty and `none` when it is empty; no error
message is shown either way, and applying a `none` result leaves the buffer
unchanged (no replacement is performed). -/
theorem claim6_zero_exit (proc : ProcResult) (view : View)
    (hrc : proc.returncode = 0) :
    execute_command_pure proc
      = ((if proc.stdout = "" then none else some proc.stdout), none)
    ∧ applyFormatResult view (execute_command_pure proc).1
      = (if proc.stdout = "" then view else { view with text := proc.stdout }) := by
  have h1 : execute_command_pure proc
      = ((if proc.stdout = "" then none else some proc.stdout), none) := by
    unfold execute_command_pure
    rw [if_pos hrc]
  refine ⟨h1, ?_⟩
  rw [h1]
  by_cases hs : proc.stdout = ""
  · rw [if_pos hs, if_pos hs]; rfl
  · rw [if_neg hs, if_neg hs]
    simp [applyFormatResult, hs]

/-- Witness for C6 at a zero-exit process with empty output. -/
theorem claim6_witness :
    execute_command_pure ⟨0, "", ""⟩ = (none, none)
    ∧ applyFormatResult viewPython (execute_command_pure ⟨0, "", ""⟩).1 = viewPython := by
  have h := claim6_zero_exit ⟨0, "", ""⟩ viewPython rfl
  exact h

/-- C8: the spawned process receives the current environment overlaid with
the expanded extra-environment entries: `execute_command` spawns with
exactly `exec_environment`, overlay keys map to their expanded values, and
keys outside the overlay keep their base-environment values. -/
theorem claim8_environment_overlay (os : OS) (command : List String)
    (working_directory : String) (stdin : Option String)
    (extra : List (String × String)) (k v k0 : String)
    (hnd : (extra.map Prod.fst).Nodup)
    (hmem : (k, v) ∈ extra)
    (hk0 : k0 ∉ extra.map Prod.fst) :
    execute_command os command working_directory stdin extra
      = execute_command_pure
          (os.spawn command working_directory (exec_environment os extra) stdin)
    ∧ exec_environment os extra k = some (os.expandvars v)
    ∧ exec_environment os extra k0 = os.environ k0 := by
  refine ⟨rfl, ?_, ?_⟩
  · exact overlayFold_mem os.expandvars extra k v hnd hmem os.environ
  · exact overlayFold_not_mem os.expandvars extra k0 hk0 os.environ

/-- Witness for C8 at a concrete two-entry overlay. -/
theorem claim8_witness :
    execute_command (constOS ⟨0, "", ""⟩) ["fmt"] "/tmp" none [("A", "x"), ("B", "y")]
      = execute_command_pure ((constOS ⟨0, "", ""⟩).spawn ["fmt"] "/tmp"
          (exec_environment (constOS ⟨0, "", ""⟩) [("A", "x"), ("B", "y")]) none)
    ∧ exec_environment (constOS ⟨0, "", ""⟩) [("A", "x"), ("B", "y")] "A"
        = some ((constOS ⟨0, "", ""⟩).expandvars "x")
    ∧ exec_environment (constOS ⟨0, "", ""⟩) [("A", "x"), ("B", "y")] "C"
        = (constOS ⟨0, "", ""⟩).environ "C" := by
  exact claim8_environment_overlay (constOS ⟨0, "", ""⟩) ["fmt"] "/tmp" none
    [("A", "x"), ("B", "y")] "A" "x" "C" (by decide) (by decide) (by decide)

/-- The ClangFormat flag loop is the concatenation of per-region flags. -/
theorem foldl_clang_flags (l : List Region) :
    ∀ init : List String,
      l.foldl (fun c r => c ++ ["-offset", toString r.first, "-length", toString r.size])
          init
        = init ++ concatMapRegions clangRangeFlags l := by
  induction l with
  | nil => intro init; simp [concatMapRegions]
  | cons r rest ih =>
    intro init
    simp only [List.foldl_cons, concatMapRegions]
    rw [ih]
    simp [clangRangeFlags, List.append_assoc]

/-- C4 fails as stated: for ClangFormat (a range-limited formatter), every
non-empty selection contributes an offset/length pair, not only the first.
With selections [0,5) and [10,20), the command carries two `-offset` flags. -/
theorem claim4_counterexample :
    build_command viewTwoSel Formatter.ClangFormat "clang-format" false
      = ["clang-format", "-assume-filename", "/work/a.cpp",
         "-offset", "0", "-length", "5", "-offset", "10", "-length", "10"]
    ∧ (build_command viewTwoSel Formatter.ClangFormat "clang-format" false).count
        "-offset" = 2 := by
  constructor <;> decide

/-- C4 amended: for AutoPep8 and Prettier only the first non-empty selection
contributes range flags; for ClangFormat every non-empty selection
contributes an offset/length pair; when no non-empty selection is active
(`view2`, whose filtered selections are empty) or selections are ignored,
no range flags are emitted and the whole buffer is formatted. -/
theorem claim4_amended_selection_flags (view view2 : View) (binary : String)
    (r : Region) (rest : List Region)
    (hsel : selected_regions view false = r :: rest)
    (hsel2 : selected_regions view2 false = []) :
    build_command view Formatter.AutoPep8 binary false
      = [binary, "--line-range", toString (rowOf view.text r.first + 1),
         toString (rowOf view.text r.stop + 1), "-"]
    ∧ build_command view Formatter.Prettier binary false
      = [binary] ++ prettierParserArgs view
        ++ ["--range-start", toString r.first, "--range-end", toString r.stop]
    ∧ build_command view Formatter.ClangFormat binary false
      = [binary, "-assume-filename", view.file_name.getD ""]
        ++ concatMapRegions clangRangeFlags (r :: rest)
    ∧ build_command view2 Formatter.AutoPep8 binary false = [binary, "-"]
    ∧ build_command view2 Formatter.ClangFormat binary false
      = [binary, "-assume-filename", view2.file_name.getD ""]
    ∧ build_command view2 Formatter.Prettier binary false
      = [binary] ++ prettierParserArgs view2
    ∧ build_command view Formatter.AutoPep8 binary true = [binary, "-"]
    ∧ build_command view Formatter.ClangFormat binary true
      = [binary, "-assume-filename", view.file_name.getD ""]
    ∧ build_command view Formatter.Prettier binary true
      = [binary] ++ prettierParserArgs view := by
  have hignore : selected_regions view true = [] := by simp [selected_regions]
  refine ⟨?_, ?_, ?_, ?_, ?_, ?_, ?_, ?_, ?_⟩
  · simp [build_command, hsel]
  · simp [build_command, hsel]
  · simp only [build_command, hsel]
    rw [foldl_clang_flags]
  · simp [build_command, hsel2]
  · simp [build_command, hsel2]
  · simp [build_command, hsel2]
  · simp [build_command, hignore]
  · simp [build_command, hignore]
  · simp [build_command, hignore]

/-- Witness for the amended C4 at the two-selection C++ buffer, with the
empty-caret buffer for the no-non-empty-selection case. -/
theorem claim4_witness :
    build_command viewTwoSel Formatter.AutoPep8 "tool" false
      = ["tool", "--line-range", "1", "1", "-"]
    ∧ build_command viewTwoSel Formatter.Prettier "tool" false
      = ["tool", "--parser", "babel", "--range-start", "0", "--range-end", "5"]
    ∧ build_command viewTwoSel Formatter.ClangFormat "tool" false
      = ["tool", "-assume-filename", "/work/a.cpp",
         "-offset", "0", "-length", "5", "-offset", "10", "-length", "10"]
    ∧ build_command viewEmptySel Formatter.AutoPep8 "tool" false = ["tool", "-"]
    ∧ build_command viewEmptySel Formatter.ClangFormat "tool" false
      = ["tool", "-assume-filename", "/work/b.cpp"]
    ∧ build_command viewEmptySel Formatter.Prettier "tool" false
      = ["tool", "--parser", "babel"]
    ∧ build_command viewTwoSel Formatter.AutoPep8 "tool" true = ["tool", "-"]
    ∧ build_command viewTwoSel Formatter.ClangFormat "tool" true
      = ["tool", "-assume-filename", "/work/a.cpp"]
    ∧ build_command viewTwoSel Formatter.Prettier "tool" true
      = ["tool", "--parser", "babel"] := by
  have h := claim4_amended_selection_flags viewTwoSel viewEmptySel "tool"
    ⟨0, 5⟩ [⟨10, 20⟩] (by decide) (by decide)
  exact ⟨h.1.trans (by decide), h.2.1.trans (by decide), h.2.2.1.trans (by decide),
    h.2.2.2.1.trans (by decide), h.2.2.2.2.1.trans (by decide),
    h.2.2.2.2.2.1.trans (by decide), h.2.2.2.2.2.2.1.trans (by decide),
    h.2.2.2.2.2.2.2.1.trans (by decide), h.2.2.2.2.2.2.2.2.trans (by decide)⟩

/-- C5: for a single selection spanning [10,20) in a 100-character buffer,
the constructed command holds exactly the tool's range flags with those
values and no others: ClangFormat gets offset 10 and length 10, AutoPep8
gets the selection's 1-based start and end line numbers, Prettier gets
range start 10 and range end 20. -/
theorem claim5_range_flags (view : View) (binary : String)
    (hsel : view.sel = [⟨10, 20⟩])
    (hlen : view.text.length = 100) :
    build_command view Formatter.ClangFormat binary false
      = [binary, "-assume-filename", view.file_name.getD "",
         "-offset", "10", "-length", "10"]
    ∧ build_command view Formatter.AutoPep8 binary false
      = [binary, "--line-range", toString (rowOf view.text 10 + 1),
         toString (rowOf view.text 20 + 1), "-"]
    ∧ build_command view Formatter.Prettier binary false
      = [binary] ++ prettierParserArgs view
        ++ ["--range-start", "10", "--range-end", "20"] := by
  have hreg : selected_regions view false = [⟨10, 20⟩] := by
    simp [selected_regions, hsel, Region.isEmpty]
  refine ⟨?_, ?_, ?_⟩
  · simp only [build_command]
    rw [hreg]
    rfl
  · simp only [build_command]
    rw [hreg]
    rfl
  · simp only [build_command]
    rw [hreg]
    rfl

/-- Witness for C5 at a 100-character JavaScript buffer. -/
theorem claim5_witness :
    build_command viewRangeSel Formatter.ClangFormat "tool" false
      = ["tool", "-assume-filename", "/work/app.js", "-offset", "10", "-length", "10"]
    ∧ build_command viewRangeSel Formatter.AutoPep8 "tool" false
      = ["tool", "--line-range", "1", "1", "-"]
    ∧ build_command viewRangeSel Formatter.Prettier "tool" false
      = ["tool", "--parser", "babel", "--range-start", "10", "--range-end", "20"] := by
  have h := claim5_range_flags viewRangeSel "tool" rfl (by decide)
  exact ⟨h.1.trans (by decide), h.2.1.trans (by decide), h.2.2.trans (by decide)⟩

/-- C7: with `on_save` set to the folder list `["Frontend"]`, the pre-save
trigger fires exactly when the saved file's path is a prefix match against
the absolute path resolved for the project folder named Frontend (so it
fires for files under that folder and not for files elsewhere); with a
boolean `on_save`, the trigger fires iff the boolean is true. -/
theorem claim7_on_save_folders (expand : String → String) (w1 w2 : Window)
    (view : View) (fmt : Formatter) (p fn : String) (b : Bool)
    (hf : formatter_type view = some fmt)
    (hn : view.file_name = some fn)
    (h1 : get_project_setting expand w1.project_data (some fmt) "on_save"
        = some (SettingVal.list [SettingVal.s "Frontend"]))
    (hfd : get_folder_data w1 "Frontend" = some p)
    (h2 : get_project_setting expand w2.project_data (some fmt) "on_save"
        = some (SettingVal.b b)) :
    on_pre_save_runs expand w1 view = some (startswith fn p)
    ∧ on_pre_save_runs expand w2 view = some b := by
  constructor
  · simp only [on_pre_save_runs, hf, listener_is_enabled, h1, hn, Option.getD_some]
    simp only [anyPrefixMatch, hfd]
    cases hs : startswith fn p with
    | true => simp [hs]
    | false => simp [hs, anyPrefixMatch]
  · simp only [on_pre_save_runs, hf, listener_is_enabled, h2]

/-- Witness for C7: a file under the Frontend folder with the list setting,
and the boolean setting true. -/
theorem claim7_witness :
    on_pre_save_runs id winFolderList viewFrontend
        = some (startswith "/proj/fe/widget.cpp" "/proj/fe")
    ∧ on_pre_save_runs id winBoolSave viewFrontend = some true := by
  have h := claim7_on_save_folders id winFolderList winBoolSave viewFrontend
    Formatter.ClangFormat "/proj/fe" "/proj/fe/widget.cpp" true
    (by decide) rfl rfl rfl rfl
  exact h

/-- The `any` generator raises as soon as it reaches a listed name with no
folder entry, provided no earlier listed name's resolved path already
matched the file. -/
theorem anyPrefixMatch_reaches_bad (fn : String) (fd : String → Option String)
    (bad : String) (hbad : fd bad = none) :
    ∀ (pre post : List SettingVal),
      (∀ v ∈ pre, ∃ nm pth, v = SettingVal.s nm
          ∧ fd nm = some pth ∧ startswith fn pth = false) →
      anyPrefixMatch fn fd (pre ++ SettingVal.s bad :: post) = none := by
  intro pre
  induction pre with
  | nil => intro post _; simp only [List.nil_append, anyPrefixMatch, hbad]
  | cons v rest ih =>
    intro post hpre
    obtain ⟨nm, pth, hv, hnm, hns⟩ := hpre v (by simp)
    subst hv
    simp only [List.cons_append, anyPrefixMatch, hnm]
    rw [if_neg (by simp [hns])]
    exact ih post (fun u hu => hpre u (by simp [hu]))

/-- C10 fails as stated: the `any` generator short-circuits, so the
enablement check can be total even when a listed name matches no folder
entry. With `on_save = ["Frontend", "Ghost"]`, Ghost naming no folder, and
a file under Frontend, the check returns true and no lookup failure occurs. -/
theorem claim10_counterexample :
    listener_is_enabled id winGhost Formatter.ClangFormat "/proj/fe/widget.cpp"
      = some true
    ∧ get_folder_data winGhost "Ghost" = none := by
  constructor <;> rfl

/-- C10 amended: a listed name with no matching folder entry (one having
both a name and a path) makes the folder-data lookup fail - rather than
the trigger being treated as disabled - whenever that name is reached,
i.e. when every earlier listed name resolves to a path that is not a
prefix of the saved file; names after the first prefix match are never
evaluated, so totality does not require every listed name to resolve. -/
theorem claim10_amended_keyerror (expand : String → String) (w : Window)
    (fmt : Formatter) (fn : String) (pre post : List SettingVal) (bad : String)
    (hset : get_project_setting expand w.project_data (some fmt) "on_save"
        = some (SettingVal.list (pre ++ SettingVal.s bad :: post)))
    (hbad : get_folder_data w bad = none)
    (hpre : ∀ v ∈ pre, ∃ nm pth, v = SettingVal.s nm
        ∧ get_folder_data w nm = some pth ∧ startswith fn pth = false) :
    listener_is_enabled expand w fmt fn = none := by
  simp only [listener_is_enabled, hset]
  exact anyPrefixMatch_reaches_bad fn (get_folder_data w) bad hbad pre post hpre

/-- Witness for the amended C10: "Ghost" is reached because the earlier
"Other" folder does not contain the saved file, and the check raises. -/
theorem claim10_witness :
    listener_is_enabled id winGhostSecond Formatter.ClangFormat "/proj/fe/x.cpp"
      = none := by
  refine claim10_amended_keyerror id winGhostSecond Formatter.ClangFormat
    "/proj/fe/x.cpp" [SettingVal.s "Other"] [] "Ghost" rfl rfl ?_
  intro v hv
  simp only [List.mem_singleton] at hv
  subst hv
  exact ⟨"Other", "/proj/ot", rfl, rfl, rfl⟩

end SublimeFormat
